import Mathlib

/-!
Verification development for the widget/layout core of a terminal
UI toolkit (`pytermgui/widgets/base.py`, with its collaborators
`ansi_interface.py` and the helper modules it imports).

The embedding models:
  * Python numbers (ints and the exact-rational idealization of floats)
    as `PyNum`, an unreduced fraction of `Int`s.  All operations are
    plain structural functions so that every concrete computation
    reduces inside the kernel.  A Python float that carries an integer
    value is identified with that integer (exact-rational model).
  * styled text as its visible cells: style functions (markup / colour
    wrappers) only add zero-width escape sequences, so in the cell model
    they are the identity and `real_length` is `String.length`.
  * `MouseTarget`, `Widget`, `Container`, `Label` state as explicit
    records; mutating methods return the updated state.  Object identity
    is modelled by a numeric `wid` token.
-/

namespace Ptg

/-- Errors surfaced by the embedded operations, mirroring the exception
taxonomy of the source (`WidthExceededError`, `LineLengthError`,
`NotImplementedError`, `TypeError`, `IndexError`, `ValueError`,
`AssertionError`). -/
inductive Err where
  | widthExceeded
  | lineLength
  | notImplemented
  | typeError
  | indexError
  | valueError
  | assertionFailed
deriving DecidableEq, Repr

instance {ε α : Type} [DecidableEq ε] [DecidableEq α] : DecidableEq (Except ε α) := fun a b =>
  match a, b with
  | .ok x, .ok y => if h : x = y then .isTrue (by rw [h]) else .isFalse (by simp [h])
  | .error x, .error y => if h : x = y then .isTrue (by rw [h]) else .isFalse (by simp [h])
  | .ok _, .error _ => .isFalse (by simp)
  | .error _, .ok _ => .isFalse (by simp)

/-- Exact model of a Python number (int or float): an unreduced fraction
`num / den`.  Every value built by the embedding keeps `den` positive.
Python ints always have `den = 1`; floats are modelled by their exact
rational value. -/
structure PyNum where
  num : Int
  den : Int
deriving DecidableEq, Repr

/-- Embed a Python int. -/
def pyI (n : Int) : PyNum := ⟨n, 1⟩

def PyNum.add (a b : PyNum) : PyNum := ⟨a.num * b.den + b.num * a.den, a.den * b.den⟩

def PyNum.sub (a b : PyNum) : PyNum := ⟨a.num * b.den - b.num * a.den, a.den * b.den⟩

def PyNum.mul (a b : PyNum) : PyNum := ⟨a.num * b.num, a.den * b.den⟩

instance : Add PyNum := ⟨PyNum.add⟩

instance : Sub PyNum := ⟨PyNum.sub⟩

instance : Mul PyNum := ⟨PyNum.mul⟩

/-- Python `==` on numbers: value (cross-multiplied) equality. -/
def PyNum.eqv (a b : PyNum) : Prop := a.num * b.den = b.num * a.den

instance : ∀ a b : PyNum, Decidable (a.eqv b) := fun a b =>
  inferInstanceAs (Decidable (_ = _))

/-- Python `<=` on numbers (valid for the positive-denominator values the
embedding produces). -/
instance : LE PyNum := ⟨fun a b => a.num * b.den ≤ b.num * a.den⟩

instance : LT PyNum := ⟨fun a b => a.num * b.den < b.num * a.den⟩

instance : ∀ a b : PyNum, Decidable (a ≤ b) := fun a b =>
  inferInstanceAs (Decidable (_ ≤ _))

instance : ∀ a b : PyNum, Decidable (a < b) := fun a b =>
  inferInstanceAs (Decidable (_ < _))

/-- Does this number carry an integer value? (Always true for Python
ints; a float is accepted where an int is needed only when its value is
integral, otherwise the operation raises `TypeError`.) -/
def PyNum.isInt (a : PyNum) : Prop := a.num % a.den = 0

instance : ∀ a : PyNum, Decidable a.isInt := fun a =>
  inferInstanceAs (Decidable (_ = _))

/-- The integer value of a `PyNum` (exact when `isInt` holds and the
denominator is positive). -/
def PyNum.toInt (a : PyNum) : Int := a.num.fdiv a.den

/-- Python `divmod(a, 2)` quotient: floor of `a / 2`. -/
def PyNum.half (a : PyNum) : Int := a.num.fdiv (2 * a.den)

theorem pyAdd_def (a b : PyNum) : a + b = PyNum.add a b := rfl

theorem pySub_def (a b : PyNum) : a - b = PyNum.sub a b := rfl

theorem pyMul_def (a b : PyNum) : a * b = PyNum.mul a b := rfl

@[simp] theorem pyI_add (a b : Int) : pyI a + pyI b = pyI (a + b) := by
  simp [pyAdd_def, PyNum.add, pyI]

@[simp] theorem pyI_sub (a b : Int) : pyI a - pyI b = pyI (a - b) := by
  simp [pySub_def, PyNum.sub, pyI]

@[simp] theorem pyI_mul (a b : Int) : pyI a * pyI b = pyI (a * b) := by
  simp [pyMul_def, PyNum.mul, pyI]

@[simp] theorem pyI_le (a b : Int) : pyI a ≤ pyI b ↔ a ≤ b := by
  constructor
  · intro h
    simpa [pyI, LE.le] using h
  · intro h
    simpa [pyI, LE.le] using h

@[simp] theorem pyI_lt (a b : Int) : pyI a < pyI b ↔ a < b := by
  constructor
  · intro h
    simpa [pyI, LT.lt] using h
  · intro h
    simpa [pyI, LT.lt] using h

@[simp] theorem pyI_eqv (a b : Int) : (pyI a).eqv (pyI b) ↔ a = b := by
  simp [pyI, PyNum.eqv]

@[simp] theorem pyI_isInt (a : Int) : (pyI a).isInt := by
  simp [pyI, PyNum.isInt]

@[simp] theorem pyI_toInt (a : Int) : (pyI a).toInt = a := by
  simp [pyI, PyNum.toInt, Int.fdiv_one]

@[simp] theorem pyI_half (a : Int) : (pyI a).half = a.fdiv 2 := by
  simp [pyI, PyNum.half]

/-- Modelled from the spec: `real_length` (from the `helpers` module,
which is not among the sources) returns the display width of a styled
string, excluding zero-width escape sequences.  In the cell model styled
text is its visible cells, so display width is the character count. -/
def real_length (s : String) : Nat := s.length

/-- String repetition. -/
def strRep : Nat → String → String
  | 0, _ => ""
  | n + 1, s => s ++ strRep n s

/-- Python `n * char` for a string `char`: repetition, empty for a
non-positive count, and a `TypeError` when `n` is a float with a
non-integral value. -/
def mulChar (q : PyNum) (s : String) : Except Err String :=
  if q.isInt then .ok (strRep q.toInt.toNat s) else .error .typeError

/-- Size policies (`enums.SizePolicy`, module not among the sources;
the spec fixes the member set {STATIC, FILL, RELATIVE}). -/
inductive SizePolicy where
  | static
  | fill
  | relative
deriving DecidableEq, Repr

/-- Alignment relative to the parent (`enums.WidgetAlignment`). -/
inductive PAlign where
  | left
  | center
  | right
deriving DecidableEq, Repr

/-- Modelled from the spec: mouse events are tagged unions
`{action ∈ {LEFT_CLICK, RELEASE, ...}, position}` (`ansi_interface`
`MouseAction`; the class is absent from the present `ansi_interface.py`
source). -/
inductive MouseAction where
  | leftClick
  | release
  | hover
deriving DecidableEq, Repr

/-- State of a `MouseTarget`: the owning widget's identity token, the
four offsets, the derived absolute corners, and the identity of the
bound click callback (if any).  Python's dataclass `==` compares all
fields by value, which `DecidableEq` mirrors here. -/
structure MT where
  ownerWid : Nat
  left : PyNum
  right : PyNum
  theight : PyNum
  top : PyNum
  startX : PyNum
  startY : PyNum
  endX : PyNum
  endY : PyNum
  onclickId : Option Nat
deriving DecidableEq, Repr

/-- Widget state common to every widget (`Widget.__init__` fields that
the embedded operations read).  `wid` models Python object identity;
`selLen` is `_selectables_length`.  The `depth` field and the style
tables are omitted: in the cell model every style function is the
identity, so they are unobservable. -/
structure Core where
  wid : Nat
  width : PyNum
  height : Int
  posX : PyNum
  posY : PyNum
  sizePolicy : SizePolicy
  relativeWidth : PyNum
  parentAlign : PAlign
  selectedIndex : Option Int
  selLen : Int
  mouseTargets : List MT
  hasParent : Bool
deriving DecidableEq, Repr

/-- `MouseTarget.adjust`: recompute the absolute corners from the owning
widget's current position and width. -/
def MT.adjust (t : MT) (parent : Core) : MT :=
  { t with
    startX := parent.posX + t.left - pyI 1
    startY := parent.posY + pyI 1 + t.top
    endX := parent.posX + parent.width - pyI 1 - t.right
    endY := parent.posY + t.top + t.theight }

/-- `MouseTarget.contains`: inclusive rectangle test on both corners. -/
def MT.contains (t : MT) (p : PyNum × PyNum) : Bool :=
  decide (t.startX ≤ p.1) && decide (p.1 ≤ t.endX) &&
    decide (t.startY ≤ p.2) && decide (p.2 ≤ t.endY)

/-- Container-specific state: the border/corner glyph lists (unpacked in
source order `[left, top, right, bottom]` and
`[t_left, t_right, b_right, b_left]`), the fullscreen bookkeeping and
the drag target (stored by identity). -/
structure ContData where
  borderLeft : String
  borderTop : String
  borderRight : String
  borderBottom : String
  cornerTL : String
  cornerTR : String
  cornerBR : String
  cornerBL : String
  hasPrinted : Bool
  allowFullscreen : Bool
  dragTargetWid : Option Nat
deriving DecidableEq, Repr

/-- The class-default `Container.chars`:
`border = ["| ", "-", " |", "-"]`, `corner = [""] * 4`, plus the default
`__init__` flags. -/
def defaultContData : ContData :=
  { borderLeft := "| ", borderTop := "-", borderRight := " |", borderBottom := "-"
    cornerTL := "", cornerTR := "", cornerBR := "", cornerBL := ""
    hasPrinted := false, allowFullscreen := true, dragTargetWid := none }

mutual
inductive Shape where
  | base : Shape
  | label : String → Nat → Shape
  | cont : ContData → WL → Shape
inductive WL where
  | nil : WL
  | cons : Core → Shape → WL → WL
end

/-- A widget is its common state plus its type-specific shape (children
carry their own cores inside the shape). -/
structure Widg where
  core : Core
  shape : Shape

/-- Is this widget a `Container`?  (The source tests this both via
`isinstance(widget, Container)` and `type(widget).__name__ ==
"Container"`; the model has no subclasses, so both collapse to this.) -/
def Shape.isCont : Shape → Bool
  | .cont _ _ => true
  | _ => false

/-- Modelled from the spec: the `terminal` driver object (absent from the
present `ansi_interface.py`) is a constant state with origin `(1, 1)`
and size 80 x 24. -/
def termOriginX : Int := 1

def termOriginY : Int := 1

def termWidth : Int := 80

def termHeight : Int := 24

/-- `Container.sidelength`: display width of the styled left+right
border glyphs. -/
def sidelength (d : ContData) : Nat := real_length (d.borderLeft ++ d.borderRight)

/-- One aligner of `Container._get_aligners`, applied to one line.  The
fill character is the styled `" "` (identity in the cell model).  The
`center` case follows Python `divmod(total, 2)` with floor semantics,
the extra cell going to the left pad. -/
def applyAlign (k : PAlign) (l r : String) (w : PyNum) (text : String) : Except Err String :=
  match k with
  | .left =>
      match mulChar (w - pyI (real_length (l ++ r)) - pyI (real_length text)) " " with
      | .error e => .error e
      | .ok pad => .ok (l ++ text ++ pad ++ r)
  | .center =>
      let total := w - pyI (real_length (l ++ r)) - pyI (real_length text)
      let p : Int := total.half
      let o : PyNum := total - pyI (2 * p)
      match mulChar (pyI p + o) " " with
      | .error e => .error e
      | .ok lpad =>
          match mulChar (pyI p) " " with
          | .error e => .error e
          | .ok rpad => .ok (l ++ lpad ++ text ++ rpad ++ r)
  | .right =>
      match mulChar (w - pyI (real_length (l ++ r)) - pyI (real_length text)) " " with
      | .error e => .error e
      | .ok pad => .ok (l ++ pad ++ text ++ r)

/-- The horizontal offset returned by `Container._get_aligners` (it is
computed from the child's width before any width policy is applied). -/
def alignOffset (self : Core) (d : ContData) (wc : Core) : PyNum :=
  match wc.parentAlign with
  | .center =>
      let total := self.width - pyI (real_length (d.borderLeft ++ d.borderRight)) - wc.width
      let p : Int := total.half
      pyI (real_length d.borderLeft) + pyI p + (total - pyI (2 * p))
  | .right => self.width - pyI (real_length d.borderLeft) - wc.width
  | .left => pyI (real_length d.borderLeft)

/-- `Container._update_width`: resolve the child's width from its size
policy.  (With exactly the three policies STATIC/FILL/RELATIVE, the
trailing `widget.width = available` clamp of the source is reachable
only in the STATIC-and-fits case, where it is skipped.) -/
def updateWidth (self : Core) (d : ContData) (isContChild : Bool) (wc : Core) :
    Except Err Core :=
  let available := self.width - pyI (sidelength d) - pyI (if isContChild then 0 else 1)
  match wc.sizePolicy with
  | .fill => .ok { wc with width := available }
  | .relative => .ok { wc with width := wc.relativeWidth * available }
  | .static =>
      if available < wc.width then .error .widthExceeded else .ok wc

/-- `Container.get_lines`'s inner `_get_border`: corner + repeated fill
char + corner. -/
def getBorder (l ch r : String) (w : PyNum) : Except Err String :=
  match mulChar (w - pyI (real_length (l ++ r))) ch with
  | .error e => .error e
  | .ok mid => .ok (l ++ mid ++ r)

/-- A split of a character list into chunks of at most `cap + 1` cells
(helper for the line-breaking collaborator). -/
def chunkGo (cap : Nat) : List Char → List Char → Nat → List (List Char)
  | [], cur, _ => if cur.isEmpty then [] else [cur.reverse]
  | c :: rest, cur, room =>
      match room with
      | 0 => cur.reverse :: chunkGo cap rest [c] cap
      | room' + 1 => chunkGo cap rest (c :: cur) room'

/-- Modelled from the spec: `break_line` (from the `helpers` module, not
among the sources) yields display-width-bounded segments of the styled
text; a non-positive or non-integral maximum width yields nothing. -/
def breakLine (text : String) (w : PyNum) : List String :=
  if w.isInt ∧ pyI 0 < w then
    match w.toInt.toNat with
    | 0 => []
    | cap + 1 => (chunkGo cap text.data [] (cap + 1)).map (fun l => String.mk l)
  else []

/-- `Label.get_lines` at a given width: break the styled,
padding-prefixed value; a single empty line when breaking yields
nothing. -/
def labelLinesW (w : PyNum) (v : String) (p : Nat) : List String :=
  let gen := breakLine (String.mk (List.replicate p ' ') ++ v) w
  if gen.isEmpty then [""] else gen

/-- `Label.get_lines`: reads only the label's current width. -/
def labelLines (c : Core) (v : String) (p : Nat) : List String := labelLinesW c.width v p

/-- The per-child alignment-and-check loop of `Container.get_lines`:
align each returned line and require its display width to equal the
container's width (`LineLengthError` otherwise; Python `==` between the
int length and the possibly-float width is value equality). -/
def alignCheck (k : PAlign) (l r : String) (w : PyNum) : List String → Except Err (List String)
  | [] => .ok []
  | line :: rest =>
      match applyAlign k l r w line with
      | .error e => .error e
      | .ok a =>
          if (pyI (real_length a)).eqv w then
            match alignCheck k l r w rest with
            | .error e => .error e
            | .ok tl => .ok (a :: tl)
          else .error .lineLength

/-- The tail of `Container.get_lines` after the child loop: pad the line
count up to the stored height with empty aligned lines, recompute
`height = len(lines) - 2`, then add the top/bottom cap rows when their
border char is non-empty. -/
def finishLines (c : Core) (d : ContData) (k : PAlign) (lines : List String) :
    Except Err (List String × Core) :=
  let padCount := (c.height - (lines.length : Int)).toNat
  let padded : Except Err (List String) :=
    if padCount = 0 then .ok lines else
      match applyAlign k d.borderLeft d.borderRight c.width "" with
      | .error e => .error e
      | .ok pl => .ok (lines ++ List.replicate padCount pl)
  match padded with
  | .error e => .error e
  | .ok lines1 =>
      let c1 := { c with height := (lines1.length : Int) - 2 }
      let capTopE : Except Err (List String) :=
        if real_length d.borderTop ≠ 0 then
          (getBorder d.cornerTL d.borderTop d.cornerTR c1.width).map (fun b => [b])
        else .ok []
      match capTopE with
      | .error e => .error e
      | .ok capTop =>
          let capBotE : Except Err (List String) :=
            if real_length d.borderBottom ≠ 0 then
              (getBorder d.cornerBL d.borderBottom d.cornerBR c1.width).map (fun b => [b])
            else .ok []
          match capBotE with
          | .error e => .error e
          | .ok capBot => .ok (capTop ++ lines1 ++ capBot, c1)

mutual
/-- Find the state of the widget with identity `w` in a subtree. -/
def findCoreS (c : Core) : Shape → Nat → Option Core
  | .cont _ ws, w => if c.wid = w then some c else findCoreL ws w
  | _, w => if c.wid = w then some c else none

def findCoreL : WL → Nat → Option Core
  | .nil, _ => none
  | .cons cc cs rest, w =>
      match findCoreS cc cs w with
      | some r => some r
      | none => findCoreL rest w
end

mutual
/-- `get_lines`, dispatched on the widget kind: the `Widget` base stub
raises `NotImplementedError`; `Label.get_lines` breaks its value;
`Container.get_lines` runs the layout pass and returns the line list
together with the updated widget state. -/
def getLinesS : Core → Shape → Except Err (List String × Core × Shape)
  | _, .base => .error .notImplemented
  | c, .label v p => .ok (labelLines c v p, c, .label v p)
  | c, .cont d ws =>
      let c1 :=
        if d.hasPrinted ∧ c.hasParent = false ∧ d.allowFullscreen ∧ c.sizePolicy = SizePolicy.fill
        then { c with posX := pyI termOriginX, posY := pyI termOriginY,
                      width := pyI termWidth, height := termHeight }
        else c
      match layoutChildren c1 d c1.parentAlign [] [] ws with
      | .error e => .error e
      | .ok (c2, k2, lines, targets, ws2) =>
          match finishLines c2 d k2 lines with
          | .error e => .error e
          | .ok (linesF, c3) =>
              let adjusted := targets.map (fun t =>
                match findCoreL ws2 t.ownerWid with
                | some oc => t.adjust oc
                | none => t)
              .ok (linesF, { c3 with mouseTargets := adjusted }, .cont d ws2)
  termination_by structural _ s => s

/-- The per-child loop of `Container.get_lines`: resolve aligner and
offset, apply the width policy, assign the child position (containers
get the one-line vertical offset for their own top border), recurse into
the child, align-and-check its lines, and accumulate lines and mouse
targets. -/
def layoutChildren : Core → ContData → PAlign → List String → List MT → WL →
    Except Err (Core × PAlign × List String × List MT × WL)
  | self, _, k, lines, targets, .nil => .ok (self, k, lines, targets, .nil)
  | self, d, _, lines, targets, .cons wc wsh rest =>
      let self1 := if self.width.eqv (pyI 0) then { self with width := wc.width } else self
      let k1 := wc.parentAlign
      let offset := alignOffset self1 d wc
      match updateWidth self1 d wsh.isCont wc with
      | .error e => .error e
      | .ok wc1 =>
          let cvo : Int := if wsh.isCont then 1 else 0
          let wc2 := { wc1 with
            posX := self1.posX + offset
            posY := self1.posY + pyI (lines.length : Int) + pyI cvo }
          match getLinesS wc2 wsh with
          | .error e => .error e
          | .ok (childLines, wc3, wsh3) =>
              match alignCheck k1 d.borderLeft d.borderRight self1.width childLines with
              | .error e => .error e
              | .ok aligned =>
                  match layoutChildren self1 d k1 (lines ++ aligned)
                      (targets ++ wc3.mouseTargets) rest with
                  | .error e => .error e
                  | .ok (cf, kf, lf, tf, restf) => .ok (cf, kf, lf, tf, .cons wc3 wsh3 restf)
  termination_by structural _ _ _ _ _ ws => ws
end

/-- `get_lines` on a packaged widget. -/
def getLines (w : Widg) : Except Err (List String × Widg) :=
  match getLinesS w.core w.shape with
  | .error e => .error e
  | .ok (ls, c, s) => .ok (ls, ⟨c, s⟩)

/-- Python list indexing `xs[i]`: non-negative indices from the front,
negative indices from the back, `IndexError` outside `[-len, len)`. -/
def pyIndex {α : Type} (xs : List α) (i : Int) : Except Err α :=
  if 0 ≤ i ∧ i < (xs.length : Int) then
    match xs.get? i.toNat with
    | some x => .ok x
    | none => .error .indexError
  else if -(xs.length : Int) ≤ i ∧ i < 0 then
    match xs.get? ((xs.length : Int) + i).toNat with
    | some x => .ok x
    | none => .error .indexError
  else .error .indexError

mutual
/-- `Widget.selectables` / `Container.selectables`: the base property is
`[(self, 0)]`; a container flattens each selectable child's list,
re-enumerating the inner positions.  Widgets are identified by their
`wid` token. -/
def selectablesS : Core → Shape → List (Nat × Nat)
  | c, .base => [(c.wid, 0)]
  | c, .label _ _ => [(c.wid, 0)]
  | _, .cont _ ws => selectablesL ws

def selectablesL : WL → List (Nat × Nat)
  | .nil => []
  | .cons cc cs rest =>
      let inner := selectablesS cc cs
      let isSel : Bool :=
        match cs with
        | .cont _ _ => inner.length != 0
        | _ => cc.selLen != 0
      (if isSel then inner.enum.map (fun pr => (pr.2.1, pr.1)) else []) ++ selectablesL rest
end

/-- `selectables_length`: the stored `_selectables_length` for plain
widgets, the length of the flattened list for containers. -/
def selLenS (c : Core) : Shape → Int
  | .cont _ ws => ((selectablesL ws).length : Int)
  | .base => c.selLen
  | .label _ _ => c.selLen

/-- Base `Widget.select`: `TypeError` when there are no selectables,
otherwise clamp a given index into `[0, selectables_length - 1]` and
store it. -/
def widSelect (c : Core) (idx : Option Int) : Core × Option Err :=
  if c.selLen = 0 then (c, some .typeError)
  else
    match idx with
    | none => ({ c with selectedIndex := none }, none)
    | some i => ({ c with selectedIndex := some (min (max 0 i) (c.selLen - 1)) }, none)

mutual
/-- `select(None)` on one widget (deselect): clears `selected_index`,
and for containers also deselects every selectable child. -/
def selectNoneS : Core → Shape → Core × Shape
  | c, .base => ({ c with selectedIndex := none }, .base)
  | c, .label v p => ({ c with selectedIndex := none }, .label v p)
  | c, .cont d ws => ({ c with selectedIndex := none }, .cont d (deselectL ws))

/-- The deselection loop of `Container.select`: `other.select(None)` for
every child with `selectables_length > 0`. -/
def deselectL : WL → WL
  | .nil => .nil
  | .cons cc cs rest =>
      if 0 < selLenS cc cs then
        let r := selectNoneS cc cs
        .cons r.1 r.2 (deselectL rest)
      else .cons cc cs (deselectL rest)
end

mutual
/-- Forward `widget.select(inner_index)` to the (leaf) widget with
identity `target`.  Entries of `selectables` are always leaves, so
container nodes only recurse. -/
def selectWidS (target : Nat) (idx : Option Int) : Core → Shape → (Core × Shape) × Option Err
  | c, .base =>
      if c.wid = target then
        let r := widSelect c idx
        ((r.1, .base), r.2)
      else ((c, .base), none)
  | c, .label v p =>
      if c.wid = target then
        let r := widSelect c idx
        ((r.1, .label v p), r.2)
      else ((c, .label v p), none)
  | c, .cont d ws =>
      let r := selectWidL target idx ws
      ((c, .cont d r.1), r.2)

def selectWidL (target : Nat) (idx : Option Int) : WL → WL × Option Err
  | .nil => (.nil, none)
  | .cons cc cs rest =>
      let r1 := selectWidS target idx cc cs
      let r2 := selectWidL target idx rest
      (.cons r1.1.1 r1.1.2 r2.1, r1.2.orElse (fun _ => r2.2))
end

/-- `Container.select`: deselect every selectable child, then map a
given index through the flattened `selectables` list and forward the
selection to the owning leaf; finally store the (raw) index.  The
source's explicit range check `if index >= len(self.selectables) is
None:` is a chained comparison equivalent to
`index >= len and (len is None)`, which is always false, so the
`IndexError` actually raised comes from the list indexing itself.  The
error value carries the state at the raise point (mutations before the
raise persist, as in Python). -/
def contSelect (c : Core) (ws : WL) (idx : Option Int) : (Core × WL) × Option Err :=
  let ws1 := deselectL ws
  match idx with
  | none => (({ c with selectedIndex := none }, ws1), none)
  | some i =>
      let sels := selectablesL ws1
      if i ≥ (sels.length : Int) ∧ False then ((c, ws1), some .indexError)
      else
        match pyIndex sels i with
        | .error e => ((c, ws1), some e)
        | .ok pr =>
            match selectWidL pr.1 (some (pr.2 : Int)) ws1 with
            | (ws2, some e) => ((c, ws2), some e)
            | (ws2, none) => (({ c with selectedIndex := some i }, ws2), none)

/-- `Container.selected`: `None` when nothing is selected or the stored
index is at least the number of selectables; otherwise the indexed entry
(Python list indexing, so a large negative stored index raises). -/
def contSelected (c : Core) (ws : WL) : Except Err (Option (Nat × Nat)) :=
  match c.selectedIndex with
  | none => .ok none
  | some i =>
      let sels := selectablesL ws
      if i ≥ (sels.length : Int) then .ok none
      else (pyIndex sels i).map some

/-- Modelled from the spec: the named key tokens of the `input.keys`
module (absent from the sources) are distinct opaque strings; the
class-level `Container.keys` sets are `{DOWN, CTRL_N, "j"}` and
`{UP, CTRL_P, "k"}`. -/
def nextKeys : List String := ["KEY_DOWN", "CTRL_N", "j"]

def prevKeys : List String := ["KEY_UP", "CTRL_P", "k"]

def enterKey : String := "KEY_ENTER"

def anyKeyToken : String := "ANY_KEY"

/-- A record of one invocation of a bound click callback:
which callback, the target's owner, and the `caller` argument. -/
structure Click where
  cb : Nat
  targetOwner : Nat
  caller : Nat
deriving DecidableEq, Repr

/-- `MouseTarget.click`: invoke the bound callback with
`(target, caller)` when one is bound, no-op otherwise. -/
def MT.click (t : MT) (caller : Nat) : List Click :=
  match t.onclickId with
  | none => []
  | some f => [⟨f, t.ownerWid, caller⟩]

/-- `Container.handle_key`: delegate to the selected leaf (whose base
`handle_key` returns `False`), then try `next`/`previous` navigation
when more than one selectable exists, then the ENTER-click branch. -/
def contHandleKey (c : Core) (ws : WL) (key : String) :
    (Core × WL) × Except Err Bool × List Click :=
  match contSelected c ws with
  | .error e => ((c, ws), .error e, [])
  | .ok selOpt =>
      let sels := selectablesL ws
      if sels.length > 1 ∧ (key ∈ nextKeys ∨ key ∈ prevKeys) then
        match (if c.selectedIndex = none then contSelect c ws (some 0) else ((c, ws), none)) with
        | ((c1, ws1), some e) => ((c1, ws1), .error e, [])
        | ((c1, ws1), none) =>
            match c1.selectedIndex with
            | none => ((c1, ws1), .error .assertionFailed, [])
            | some si =>
                if key ∈ prevKeys then
                  if si = 0 then ((c1, ws1), .ok false, [])
                  else
                    match contSelect c1 ws1 (some (si - 1)) with
                    | ((c2, ws2), some e) => ((c2, ws2), .error e, [])
                    | ((c2, ws2), none) => ((c2, ws2), .ok true, [])
                else
                  if si + 1 = ((selectablesL ws1).length : Int) then ((c1, ws1), .ok false, [])
                  else
                    match contSelect c1 ws1 (some (si + 1)) with
                    | ((c2, ws2), some e) => ((c2, ws2), .error e, [])
                    | ((c2, ws2), none) => ((c2, ws2), .ok true, [])
      else
        if key = enterKey then
          match selOpt with
          | some pr =>
              match findCoreL ws pr.1 with
              | some lc =>
                  match lc.selectedIndex with
                  | some si2 =>
                      match pyIndex lc.mouseTargets si2 with
                      | .error e => ((c, ws), .error e, [])
                      | .ok t => ((c, ws), .ok true, t.click c.wid)
                  | none => ((c, ws), .ok false, [])
              | none => ((c, ws), .ok false, [])
          | none => ((c, ws), .ok false, [])
        else ((c, ws), .ok false, [])

/-- `Widget.get_target`: first mouse target containing the point
(targets are kept newest-first, so later-defined regions win). -/
def getTarget (ts : List MT) (p : PyNum × PyNum) : Option MT := ts.find? (fun t => t.contains p)

/-- Base `Widget.handle_mouse`: resolve the target by point if not
supplied; on LEFT_CLICK with a target, click it and report handled. -/
def widHandleMouse (c : Core) (a : MouseAction) (p : PyNum × PyNum) (tgt : Option MT) :
    Bool × List Click :=
  let target := match tgt with | some t => some t | none => getTarget c.mouseTargets p
  match a, target with
  | .leftClick, none => (false, [])
  | .leftClick, some t => (true, t.click c.wid)
  | _, _ => (false, [])

/-- The `_get_widget` helper of `Container.handle_mouse`: index of the
first immediate child owning the given target (dataclass value
equality). -/
def childIdxByTarget : WL → MT → Option Nat
  | .nil, _ => none
  | .cons cc _ rest, t =>
      if t ∈ cc.mouseTargets then some 0
      else (childIdxByTarget rest t).map (· + 1)

/-- Index of the immediate child with the given identity (used to
resolve a remembered drag target). -/
def childIdxByWid : WL → Nat → Option Nat
  | .nil, _ => none
  | .cons cc _ rest, w =>
      if cc.wid = w then some 0
      else (childIdxByWid rest w).map (· + 1)

/-- Fetch the `i`-th immediate child. -/
def getChild : WL → Nat → Option (Core × Shape)
  | .nil, _ => none
  | .cons cc cs _, 0 => some (cc, cs)
  | .cons _ _ rest, i + 1 => getChild rest i

/-- Python `list.index` for mouse targets (dataclass value equality);
`None` models the `ValueError` case. -/
def idxOfMT (ts : List MT) (t : MT) : Option Nat := ts.indexOf? t

mutual
/-- `handle_mouse`, dispatched on the widget kind. -/
def handleMouseS : Core → Shape → MouseAction → (PyNum × PyNum) → Option MT →
    (Core × Shape) × Except Err Bool × List Click
  | c, .base, a, p, t =>
      let r := widHandleMouse c a p t
      ((c, .base), .ok r.1, r.2)
  | c, .label v pp, a, p, t =>
      let r := widHandleMouse c a p t
      ((c, .label v pp), .ok r.1, r.2)
  | c, .cont d ws, a, p, t =>
      let target? := match t with | some tt => some tt | none => getTarget c.mouseTargets p
      match target? with
      | none => ((c, .cont d ws), .ok false, [])
      | some tt =>
          let twIdx : Option Nat :=
            match d.dragTargetWid with
            | some w => childIdxByWid ws w
            | none => childIdxByTarget ws tt
          let d1 :=
            if a = MouseAction.leftClick then
              { d with dragTargetWid := (twIdx.bind (getChild ws)).map (fun ch => ch.1.wid) }
            else if a = MouseAction.release then { d with dragTargetWid := none }
            else d
          match twIdx with
          | none => ((c, .cont d1 ws), .ok false, [])
          | some i =>
              match handleMouseChild ws i a p tt with
              | (ws2, .error e, log) => ((c, .cont d1 ws2), .error e, log)
              | (ws2, .ok handled, log) =>
                  if handled then
                    match idxOfMT c.mouseTargets tt with
                    | none => ((c, .cont d1 ws2), .error .valueError, log)
                    | some fi =>
                        match contSelect c ws2 (some (fi : Int)) with
                        | ((c2, ws3), some e) => ((c2, .cont d1 ws3), .error e, log)
                        | ((c2, ws3), none) => ((c2, .cont d1 ws3), .ok true, log)
                  else ((c, .cont d1 ws2), .ok false, log)
  termination_by structural _ s _ _ _ => s

/-- Forward the event to the `i`-th immediate child (the resolved
`target_widget`). -/
def handleMouseChild : WL → Nat → MouseAction → (PyNum × PyNum) → MT →
    WL × Except Err Bool × List Click
  | .nil, _, _, _, _ => (.nil, .ok false, [])
  | .cons cc cs rest, 0, a, p, t =>
      let r := handleMouseS cc cs a p (some t)
      (.cons r.1.1 r.1.2 rest, r.2.1, r.2.2)
  | .cons cc cs rest, i + 1, a, p, t =>
      let r := handleMouseChild rest i a p t
      (.cons cc cs r.1, r.2.1, r.2.2)
  termination_by structural ws _ _ _ _ => ws
end

/-- `Widget.execute_binding`: run the wildcard (`ANY_KEY`) binding, when
present, for every keystroke; then run and report an exact binding.
Bindings are the `(key, callback)` pairs of `_bindings`; the returned
list logs the callback invocations (callback id, `key` argument). -/
def executeBinding (bs : List (String × Nat)) (key : String) : List (Nat × String) × Bool :=
  let l1 :=
    match bs.find? (fun e => e.1 == anyKeyToken) with
    | some m => [(m.2, key)]
    | none => []
  match bs.find? (fun e => e.1 == key) with
  | some m => (l1 ++ [(m.2, key)], true)
  | none => (l1, false)

/-- `Widget.__init__` defaults for the fields of `Core` (`width = 1`,
`height = 1`, position at the terminal origin), with an optional `width`
constructor attribute applied on top.  The class defaults of
`size_policy` and `parent_align` come from the absent `enums` module and
are modelled from the spec as FILL and LEFT. -/
def widgetInitCore (wid : Nat) (widthAttr : Option PyNum) : Core :=
  { wid := wid, width := widthAttr.getD (pyI 1), height := 1,
    posX := pyI termOriginX, posY := pyI termOriginY,
    sizePolicy := .fill, relativeWidth := pyI 1, parentAlign := .left,
    selectedIndex := none, selLen := 0, mouseTargets := [], hasParent := false }

/-- Append a child to a child list. -/
def wlAppend : WL → Core → Shape → WL
  | .nil, c, s => .cons c s .nil
  | .cons cc cs rest, c, s => .cons cc cs (wlAppend rest c s)

/-- `Container._add_widget` (with `run_get_lines = True`): render the
child once, set its parent back-reference, grow the container height by
the child's (updated) height, and run a full layout pass.  Depth
assignment is omitted (unobservable in the cell model). -/
def addWidget (c : Core) (d : ContData) (ws : WL) (chC : Core) (chS : Shape) :
    Except Err (Core × ContData × WL) :=
  match getLinesS chC chS with
  | .error e => .error e
  | .ok (_, chC1, chS1) =>
      let chC2 := { chC1 with hasParent := true }
      let c1 := { c with height := c.height + chC2.height }
      let ws1 := wlAppend ws chC2 chS1
      match getLinesS c1 (.cont d ws1) with
      | .error e => .error e
      | .ok (_, c2, s2) =>
          match s2 with
          | .cont d2 ws2 => .ok (c2, d2, ws2)
          | _ => .error .assertionFailed

/-- The `_add_widget` loop of `Container.__init__`. -/
def containerInitGo : Core → ContData → WL → List (Core × Shape) →
    Except Err (Core × ContData × WL)
  | c, d, ws, [] => .ok (c, d, ws)
  | c, d, ws, (cc, cs) :: rest =>
      match addWidget c d ws cc cs with
      | .error e => .error e
      | .ok (c1, d1, ws1) => containerInitGo c1 d1 ws1 rest

/-- `Container.__init__`: widget defaults, then `width = 40` when no
`width` attribute was passed, then add the initial children. -/
def containerInit (wid : Nat) (widthAttr : Option PyNum) (children : List (Core × Shape)) :
    Except Err (Core × ContData × WL) :=
  let c0 := widgetInitCore wid widthAttr
  let c1 := match widthAttr with | none => { c0 with width := pyI 40 } | some _ => c0
  containerInitGo c1 defaultContData .nil children

/-- `Label.__init__`: widget defaults, then
`width = real_length(value) + padding`. -/
def mkLabel (wid : Nat) (v : String) (p : Nat) : Core × Shape :=
  ({ widgetInitCore wid none with width := pyI (real_length v + p) }, .label v p)

/-- A base widget with one selectable (the generic selectable child used
by the keyboard/mouse scenarios). -/
def selChild (w : Nat) : Core := { widgetInitCore w none with selLen := 1 }

/-- Three one-selectable children, the Scenario-C container content. -/
def scenCKids : WL :=
  .cons (selChild 1) .base (.cons (selChild 2) .base (.cons (selChild 3) .base .nil))

/-- The Scenario-C container state (default width 40, nothing selected). -/
def scenCCont : Core := widgetInitCore 0 (some (pyI 40))

/-- A container whose single child is selectable and currently selected
(used for the rejected-selection scenarios). -/
def oneSelKids : WL := .cons { selChild 7 with selectedIndex := some 0 } .base .nil

/-- An empty bordered container of width 1 (line-width counterexample
input). -/
def thinCont : Core := widgetInitCore 0 (some (pyI 1))

/-- An empty bordered container of width 6 whose stored height 5 exceeds
its content (idempotence counterexample input). -/
def tallCont : Core := { widgetInitCore 0 (some (pyI 6)) with height := 5 }

/-- Are all children `Label`s? (scope marker for the flat-layout
theorems). -/
def allLabelsB : WL → Bool
  | .nil => true
  | .cons _ (.label _ _) rest => allLabelsB rest
  | .cons _ _ _ => false

/-- The rendered lines of one `get_lines` call. -/
def renderOnce (c : Core) (s : Shape) : Except Err (List String) :=
  (getLinesS c s).map (fun r => r.1)

/-- The rendered lines of a second `get_lines` call on the state the
first call left behind. -/
def renderAgain (c : Core) (s : Shape) : Except Err (List String) :=
  match getLinesS c s with
  | .error e => .error e
  | .ok (_, c2, s2) => (getLinesS c2 s2).map (fun r => r.1)

/-- Selection state of the first child (projection used to observe the
partial state change of a rejected `Container.select`). -/
def headSelIdx : WL → Option Int
  | .cons k _ _ => k.selectedIndex
  | .nil => none

/-- A one-row mouse target with adjusted corners spanning columns
`x0..x1`, rows `1..3` (concrete Scenario-D geometry). -/
def scenDT (own : Nat) (x0 x1 : Int) (cb : Option Nat) : MT :=
  { ownerWid := own, left := pyI 0, right := pyI 0, theight := pyI 1, top := pyI 0,
    startX := pyI x0, startY := pyI 1, endX := pyI x1, endY := pyI 3, onclickId := cb }

/-- A selectable child owning one mouse target. -/
def scenDChild (w : Nat) (t : MT) : Core :=
  { widgetInitCore w none with selLen := 1, mouseTargets := [t] }

/-- The Scenario-D container: flattened target list of its three
children, as a layout pass leaves it. -/
def scenDCont : Core :=
  { widgetInitCore 0 (some (pyI 40)) with
    mouseTargets := [scenDT 1 0 3 none, scenDT 2 5 9 (some 42), scenDT 3 11 14 none] }

/-- C8: for a `MouseTarget` whose corners are up to date (just
recomputed by `adjust` from the parent's position and width), `contains`
holds exactly on the inclusive rectangle `[start, end]`; consequently a
point strictly inside is contained and a point beyond any edge (in
particular one cell outside) is not. -/
theorem c8_contains_iff_inclusive_rect (parent : Core) (t0 : MT) (qx qy : Int)
    (l r ht tp px py w : Int)
    (hl : t0.left = pyI l) (hr : t0.right = pyI r) (hh : t0.theight = pyI ht)
    (htp : t0.top = pyI tp)
    (hx : parent.posX = pyI px) (hy : parent.posY = pyI py) (hw : parent.width = pyI w) :
    (MT.contains (t0.adjust parent) (pyI qx, pyI qy) = true ↔
      (px + l - 1 ≤ qx ∧ qx ≤ px + w - 1 - r ∧ py + 1 + tp ≤ qy ∧ qy ≤ py + tp + ht))
    ∧ ((t0.adjust parent).startX < pyI qx ∧ pyI qx < (t0.adjust parent).endX ∧
        (t0.adjust parent).startY < pyI qy ∧ pyI qy < (t0.adjust parent).endY →
        MT.contains (t0.adjust parent) (pyI qx, pyI qy) = true)
    ∧ (pyI qx < (t0.adjust parent).startX ∨ (t0.adjust parent).endX < pyI qx ∨
        pyI qy < (t0.adjust parent).startY ∨ (t0.adjust parent).endY < pyI qy →
        MT.contains (t0.adjust parent) (pyI qx, pyI qy) = false) := by
  have hadj : t0.adjust parent =
      { t0 with
        startX := pyI (px + l - 1), startY := pyI (py + 1 + tp)
        endX := pyI (px + w - 1 - r), endY := pyI (py + tp + ht) } := by
    simp [MT.adjust, hl, hr, hh, htp, hx, hy, hw]
  rw [hadj]
  refine ⟨?_, ?_, ?_⟩
  · simp [MT.contains]
    omega
  · intro h
    simp only [MT.contains]
    simp only [pyI_lt] at h
    simp [pyI_le]
    omega
  · intro h
    simp only [MT.contains]
    simp only [pyI_lt] at h
    simp [pyI_le]
    omega

/-- Witness for C8 at a concrete target and parent. -/
theorem c8_witness :
    MT.contains
      (MT.adjust ⟨5, pyI 2, pyI 1, pyI 1, pyI 0, pyI 0, pyI 0, pyI 0, pyI 0, none⟩
        { widgetInitCore 9 (some (pyI 10)) with posX := pyI 1, posY := pyI 1 })
      (pyI 4, pyI 2) = true := by
  have h := c8_contains_iff_inclusive_rect
    { widgetInitCore 9 (some (pyI 10)) with posX := pyI 1, posY := pyI 1 }
    ⟨5, pyI 2, pyI 1, pyI 1, pyI 0, pyI 0, pyI 0, pyI 0, pyI 0, none⟩
    4 2 2 1 1 0 1 1 10 rfl rfl rfl rfl rfl rfl rfl
  exact h.1.mpr (by decide)

/-- C9: `execute_binding` runs the wildcard (`ANY_KEY`) callback, when
one is bound, for every keystroke, but reports success only when an
exact binding for the pressed key exists; with only a wildcard binding,
the wildcard callback fires and the call still returns `False`. -/
theorem c9_wildcard_fires_but_returns_false (bs : List (String × Nat)) (key : String) :
    ((executeBinding bs key).2 = true ↔ ∃ pr, bs.find? (fun e => e.1 == key) = some pr)
    ∧ (∀ pr, bs.find? (fun e => e.1 == anyKeyToken) = some pr →
        (pr.2, key) ∈ (executeBinding bs key).1)
    ∧ (∀ pr, key ≠ anyKeyToken → bs.find? (fun e => e.1 == key) = none →
        bs.find? (fun e => e.1 == anyKeyToken) = some pr →
        executeBinding bs key = ([(pr.2, key)], false)) := by
  refine ⟨?_, ?_, ?_⟩
  · cases h : bs.find? (fun e => e.1 == key) with
    | none => simp [executeBinding, h]
    | some pr =>
        cases h2 : bs.find? (fun e => e.1 == anyKeyToken) with
        | none => simp [executeBinding, h, h2]
        | some pr2 => simp [executeBinding, h, h2]
  · intro pr hpr
    cases h : bs.find? (fun e => e.1 == key) with
    | none => simp [executeBinding, h, hpr]
    | some pr2 => simp [executeBinding, h, hpr]
  · intro pr _ hnone hany
    simp [executeBinding, hnone, hany]

/-- Witness for C9: only a wildcard binding is bound; pressing `"x"`
fires callback 7 and still returns `False`. -/
theorem c9_witness : executeBinding [(anyKeyToken, 7)] "x" = ([(7, "x")], false) := by
  exact (c9_wildcard_fires_but_returns_false [(anyKeyToken, 7)] "x").2.2 (anyKeyToken, 7)
    (by decide) (by decide) (by decide)

mutual
theorem selsNone_S : (c : Core) → (s : Shape) →
    selectablesS (selectNoneS c s).1 (selectNoneS c s).2 = selectablesS c s
  | _, .base => rfl
  | _, .label _ _ => rfl
  | c, .cont d ws => by
      simp [selectNoneS, selectablesS, selsNone_L ws]

theorem selsNone_L : (ws : WL) → selectablesL (deselectL ws) = selectablesL ws
  | .nil => rfl
  | .cons cc cs rest => by
      by_cases h : 0 < selLenS cc cs
      · cases cs with
        | base =>
            simp [deselectL, h, selectablesL, selectNoneS, selsNone_L rest, selectablesS]
        | label v p =>
            simp [deselectL, h, selectablesL, selectNoneS, selsNone_L rest, selectablesS]
        | cont d ws2 =>
            simp [deselectL, h, selectablesL, selectNoneS, selsNone_L rest, selectablesS,
              selsNone_L ws2]
      · simp [deselectL, h, selectablesL, selsNone_L rest]
end

theorem pyIndex_oob {α : Type} (xs : List α) (i : Int) (h : (xs.length : Int) ≤ i) :
    pyIndex xs i = .error .indexError := by
  have h1 : ¬(0 ≤ i ∧ i < (xs.length : Int)) := by omega
  have h2 : ¬(-(xs.length : Int) ≤ i ∧ i < 0) := by omega
  simp [pyIndex, h1, h2]

theorem contSelect_oob (c : Core) (ws : WL) (i : Int)
    (h : ((selectablesL ws).length : Int) ≤ i) :
    contSelect c ws (some i) = ((c, deselectL ws), some .indexError) := by
  have hlen : ((selectablesL (deselectL ws)).length : Int) ≤ i := by
    rw [selsNone_L ws]; exact h
  simp [contSelect, pyIndex_oob _ _ hlen]

theorem getChild_deselectL : (ws : WL) → (i : Nat) → (cc : Core) → (cs : Shape) →
    getChild ws i = some (cc, cs) → 0 < selLenS cc cs →
    ∃ pr, getChild (deselectL ws) i = some pr ∧ pr.1.selectedIndex = none
  | .nil, i, _, _, h, _ => by simp [getChild] at h
  | .cons c0 s0 rest, 0, cc, cs, h, hsel => by
      have h0 : c0 = cc ∧ s0 = cs := by simpa [getChild] using h
      have hsel0 : 0 < selLenS c0 s0 := by rw [h0.1, h0.2]; exact hsel
      refine ⟨((selectNoneS c0 s0).1, (selectNoneS c0 s0).2), ?_, ?_⟩
      · simp [deselectL, hsel0, getChild]
      · cases s0 <;> simp [selectNoneS]
  | .cons c0 s0 rest, i + 1, cc, cs, h, hsel => by
      simp [getChild] at h
      obtain ⟨pr, hpr, hsel'⟩ := getChild_deselectL rest i cc cs h hsel
      by_cases hs : 0 < selLenS c0 s0
      · exact ⟨pr, by simp [deselectL, hs, getChild, hpr], hsel'⟩
      · exact ⟨pr, by simp [deselectL, hs, getChild, hpr], hsel'⟩

/-- C6 counterexample: an out-of-range `Container.select` does raise an
`IndexError`, but only after deselecting the (previously selected)
child: the rejected call leaves a partial state change behind. -/
theorem c6_counterexample :
    (contSelect scenCCont oneSelKids (some 5)).2 = some Err.indexError
    ∧ headSelIdx oneSelKids = some 0
    ∧ headSelIdx (contSelect scenCCont oneSelKids (some 5)).1.2 = none := by decide

/-- C6 (amended): base `Widget.select` on a non-selectable widget raises
`TypeError` with no state change, and `Container.select` with an index
at least `selectables_length` raises an `IndexError` — but the container
first deselects every child that has selectables, so the rejected call
does alter the children's selection state. -/
theorem c6_rejected_selects (_ : True) :
    (∀ (c : Core) (i : Int), c.selLen = 0 → widSelect c (some i) = (c, some .typeError))
    ∧ (∀ (c : Core) (ws : WL) (i : Int), ((selectablesL ws).length : Int) ≤ i →
        contSelect c ws (some i) = ((c, deselectL ws), some .indexError))
    ∧ (∀ (ws : WL) (i : Nat) (cc : Core) (cs : Shape), getChild ws i = some (cc, cs) →
        0 < selLenS cc cs →
        ∃ pr, getChild (deselectL ws) i = some pr ∧ pr.1.selectedIndex = none) := by
  refine ⟨?_, ?_, ?_⟩
  · intro c i h
    simp [widSelect, h]
  · intro c ws i h
    exact contSelect_oob c ws i h
  · intro ws i cc cs h hsel
    exact getChild_deselectL ws i cc cs h hsel

/-- Witness for C6 at a concrete container: the rejected call returns
the deselected child list together with the `IndexError`. -/
theorem c6_witness :
    contSelect scenCCont oneSelKids (some 6) = ((scenCCont, deselectL oneSelKids), some .indexError) :=
  (c6_rejected_selects trivial).2.1 scenCCont oneSelKids 6 (by decide)

/-- C7 counterexample: `Container.select` does not clamp; an index past
the end raises `IndexError` and the stored `selected_index` is not the
clamped `min(max(0, i), selectables_length - 1)`. -/
theorem c7_counterexample :
    (contSelect scenCCont oneSelKids (some 9)).2 = some Err.indexError
    ∧ ¬ (contSelect scenCCont oneSelKids (some 9)).1.1.selectedIndex = some 0 := by decide

/-- C7 (amended): base `Widget.select` stores the clamped index
`min(max(0, i), selectables_length - 1)` and fails when there are no
selectables; `Container.select` does not clamp — on success it stores
the raw index (negative indices address the flat list from its end), and
an index at least `selectables_length` raises `IndexError`. -/
theorem c7_select_clamps (_ : True) :
    (∀ (c : Core) (i : Int), 1 ≤ c.selLen →
        widSelect c (some i) = ({ c with selectedIndex := some (min (max 0 i) (c.selLen - 1)) }, none))
    ∧ (∀ (c : Core) (i : Int), c.selLen = 0 → widSelect c (some i) = (c, some .typeError))
    ∧ (∀ (c : Core) (ws : WL) (i : Int), (contSelect c ws (some i)).2 = none →
        (contSelect c ws (some i)).1.1.selectedIndex = some i)
    ∧ (∀ (c : Core) (ws : WL) (i : Int), ((selectablesL ws).length : Int) ≤ i →
        (contSelect c ws (some i)).2 = some .indexError) := by
  refine ⟨?_, ?_, ?_, ?_⟩
  · intro c i h
    have hne : ¬ c.selLen = 0 := by omega
    simp [widSelect, hne]
  · intro c i h
    simp [widSelect, h]
  · intro c ws i h
    unfold contSelect at h ⊢
    cases hpi : pyIndex (selectablesL (deselectL ws)) i with
    | error e => simp [hpi] at h
    | ok pr =>
        simp [hpi] at h ⊢
        cases hsw : selectWidL pr.1 (some (pr.2 : Int)) (deselectL ws) with
        | mk ws2 err =>
            cases err with
            | none => simp [hsw]
            | some e => simp [hsw] at h
  · intro c ws i h
    rw [contSelect_oob c ws i h]

/-- Witness for C7: a base widget with one selectable clamps index 5 to
0 and stores it. -/
theorem c7_witness :
    widSelect (selChild 9) (some 5) = ({ selChild 9 with selectedIndex := some 0 }, none) := by
  rw [(c7_select_clamps trivial).1 (selChild 9) 5 (by decide)]
  decide

/-- C3 counterexample: on the Scenario-C container (three selectables,
nothing selected), the first press of `"j"` reports handled but leaves
`selected_index` at 1, not 0 (the code selects 0 and then immediately
advances). -/
theorem c3_counterexample :
    (contHandleKey scenCCont scenCKids "j").2.1 = .ok true
    ∧ (contHandleKey scenCCont scenCKids "j").1.1.selectedIndex = some 1
    ∧ ¬ (contHandleKey scenCCont scenCKids "j").1.1.selectedIndex = some 0 := by decide

/-- C3 (amended): on a container with 3 selectables and no prior
selection, `"j"` (next) selects index 1 and reports handled (the code
first selects 0, then advances); a second `"j"` selects 2; two `"k"`
(previous) presses return to 0; a further `"k"` at index 0 reports
unhandled and leaves the selection at 0. -/
theorem c3_navigation_trace :
    (let r1 := contHandleKey scenCCont scenCKids "j"
     let r2 := contHandleKey r1.1.1 r1.1.2 "j"
     let r3 := contHandleKey r2.1.1 r2.1.2 "k"
     let r4 := contHandleKey r3.1.1 r3.1.2 "k"
     let r5 := contHandleKey r4.1.1 r4.1.2 "k"
     r1.2.1 = .ok true ∧ r1.1.1.selectedIndex = some 1
     ∧ r2.2.1 = .ok true ∧ r2.1.1.selectedIndex = some 2
     ∧ r3.2.1 = .ok true ∧ r3.1.1.selectedIndex = some 1
     ∧ r4.2.1 = .ok true ∧ r4.1.1.selectedIndex = some 0
     ∧ r5.2.1 = .ok false ∧ r5.1.1.selectedIndex = some 0) := by decide

theorem alignCheck_mem (k : PAlign) (l r : String) (w : PyNum) :
    (cls : List String) → (out : List String) → alignCheck k l r w cls = .ok out →
    ∀ a ∈ out, (pyI (real_length a)).eqv w
  | [], out, h => by
      simp only [alignCheck, Except.ok.injEq] at h
      subst h
      intro a ha
      exact absurd ha (by simp)
  | line :: rest, out, h => by
      simp only [alignCheck] at h
      split at h
      · simp at h
      · split at h
        · rename_i a ha he
          split at h
          · simp at h
          · rename_i tl hr
            simp only [Except.ok.injEq] at h
            intro x hx
            rw [← h] at hx
            cases hx with
            | head => exact he
            | tail _ hx2 => exact alignCheck_mem k l r w rest tl hr x hx2
        · simp at h

theorem layoutChildren_inv :
    (ws : WL) → (self : Core) → (d : ContData) → (k : PAlign) →
    (ls : List String) → (ts : List MT) →
    (out : Core × PAlign × List String × List MT × WL) →
    layoutChildren self d k ls ts ws = .ok out → ¬ self.width.eqv (pyI 0) →
    out.1 = self ∧ ∀ l ∈ out.2.2.1, l ∈ ls ∨ (pyI (real_length l)).eqv self.width
  | .nil, self, d, k, ls, ts, out, h, hw => by
      simp only [layoutChildren, Except.ok.injEq] at h
      refine ⟨by rw [← h], ?_⟩
      intro l hl
      rw [← h] at hl
      exact Or.inl hl
  | .cons wc wsh rest, self, d, k, ls, ts, out, h, hw => by
      simp only [layoutChildren] at h
      rw [if_neg hw] at h
      split at h
      · simp at h
      · rename_i wc1 hu
        split at h
        · simp at h
        · rename_i childLines wc3 wsh3 hg
          split at h
          · simp at h
          · rename_i aligned hc
            split at h
            · simp at h
            · rename_i cf kf lf tf restf hrec
              simp only [Except.ok.injEq] at h
              obtain ⟨hself, hmem⟩ :=
                layoutChildren_inv rest self d wc.parentAlign (ls ++ aligned)
                  (ts ++ wc3.mouseTargets) (cf, kf, lf, tf, restf) hrec hw
              constructor
              · rw [← h]
                exact hself
              · intro l hl
                rw [← h] at hl
                rcases hmem l hl with hin | heq
                · rcases List.mem_append.mp hin with h1 | h2
                  · exact Or.inl h1
                  · exact Or.inr (alignCheck_mem _ _ _ _ childLines aligned hc l h2)
                · exact Or.inr heq

theorem finishLines_core (c : Core) (d : ContData) (k : PAlign) (lines ls : List String)
    (c' : Core) (h : finishLines c d k lines = .ok (ls, c')) :
    c' = { c with height := c'.height } := by
  simp only [finishLines] at h
  split at h
  · simp at h
  · rename_i lines1 hpad
    split at h
    · simp at h
    · rename_i capTop htop
      split at h
      · simp at h
      · rename_i capBot hbot
        simp only [Except.ok.injEq, Prod.mk.injEq] at h
        rw [← h.2]

theorem getLinesS_cont_core (c : Core) (d : ContData) (ws : WL) (ls : List String)
    (c' : Core) (s' : Shape) (h : getLinesS c (.cont d ws) = .ok (ls, c', s'))
    (hp : d.hasPrinted = false) (hw : ¬ c.width.eqv (pyI 0)) :
    c' = { c with height := c'.height, mouseTargets := c'.mouseTargets }
    ∧ ∃ ws2, s' = .cont d ws2 := by
  rw [getLinesS] at h
  rw [if_neg (by simp [hp])] at h
  split at h
  · simp at h
  · rename_i c2 k2 lines targets ws2 hlay
    split at h
    · simp at h
    · rename_i linesF c3 hfin
      simp only [Except.ok.injEq, Prod.mk.injEq] at h
      have hc2 : c2 = c := (layoutChildren_inv ws c d c.parentAlign [] []
        (c2, k2, lines, targets, ws2) hlay hw).1
      have hc3 : c3 = { c2 with height := c3.height } :=
        finishLines_core c2 d k2 lines linesF c3 hfin
      obtain ⟨_, h2, h3⟩ := h
      refine ⟨?_, ⟨ws2, h3.symm⟩⟩
      subst h2
      rw [hc3, hc2]

theorem addWidget_inv (c : Core) (d : ContData) (ws : WL) (chC : Core) (chS : Shape)
    (out : Core × ContData × WL) (h : addWidget c d ws chC chS = .ok out)
    (hp : d.hasPrinted = false) (hw : ¬ c.width.eqv (pyI 0)) :
    out.1.width = c.width ∧ out.2.1 = d := by
  simp only [addWidget] at h
  split at h
  · simp at h
  · rename_i cl chC1 chS1 hch
    split at h
    · simp at h
    · rename_i ls2 c2 s2 hcont
      have hcore := getLinesS_cont_core { c with height := c.height + chC1.height } d
        (wlAppend ws { chC1 with hasParent := true } chS1) ls2 c2 s2 hcont hp (by simpa using hw)
      obtain ⟨hc2, ws2, hs2⟩ := hcore
      subst hs2
      simp only [Except.ok.injEq] at h
      rw [← h]
      constructor
      · rw [hc2]
      · rfl

theorem containerInitGo_width :
    (children : List (Core × Shape)) → (c : Core) → (d : ContData) → (ws : WL) →
    (out : Core × ContData × WL) →
    containerInitGo c d ws children = .ok out → d.hasPrinted = false →
    ¬ c.width.eqv (pyI 0) → out.1.width = c.width
  | [], c, d, ws, out, h, _, _ => by
      simp only [containerInitGo, Except.ok.injEq] at h
      rw [← h]
  | (cc, cs) :: rest, c, d, ws, out, h, hp, hw => by
      simp only [containerInitGo] at h
      split at h
      · simp at h
      · rename_i c1 d1 ws1 hadd
        obtain ⟨hwidth, hd⟩ := addWidget_inv c d ws cc cs (c1, d1, ws1) hadd hp hw
        simp only [] at hwidth hd
        have := containerInitGo_width rest c1 d1 ws1 out h
          (by rw [hd]; exact hp) (by rw [hwidth]; exact hw)
        rw [this, hwidth]

/-- C10 counterexample: a width of 0 passed in the constructor
attributes is not kept — the first layout pass replaces a zero width by
the first child's width (here 5, from `Label("hello")`). -/
theorem c10_counterexample :
    (containerInit 0 (some (pyI 0)) [mkLabel 1 "hello" 0]).map (fun r => r.1.width) =
      .ok (pyI 5)
    ∧ ¬ (pyI 5).eqv (pyI 0) := by decide

/-- C10 (amended): a `Container` constructed without a `width` attribute
has width 40 (overriding the base `Widget` default of 1); a nonzero
`width` passed in the attributes is kept (a zero width is replaced by
the first child's width during the initial layout pass). -/
theorem c10_default_width (_ : True) :
    (∀ (wid : Nat) (children : List (Core × Shape)) (out : Core × ContData × WL),
        containerInit wid none children = .ok out → out.1.width = pyI 40)
    ∧ (∀ (wid : Nat) (w : PyNum) (children : List (Core × Shape))
          (out : Core × ContData × WL), ¬ w.eqv (pyI 0) →
        containerInit wid (some w) children = .ok out → out.1.width = w)
    ∧ (widgetInitCore 0 none).width = pyI 1 := by
  refine ⟨?_, ?_, rfl⟩
  · intro wid children out h
    simp only [containerInit] at h
    refine containerInitGo_width children _ defaultContData .nil out h rfl ?_
    simp [PyNum.eqv, pyI]
  · intro wid w children out hz h
    simp only [containerInit] at h
    refine containerInitGo_width children _ defaultContData .nil out h rfl ?_
    simpa [widgetInitCore] using hz

/-- Witness for C10: a container built with one label child and no
width attribute ends with width 40. -/
theorem c10_witness :
    ∃ out, containerInit 3 none [mkLabel 4 "hi" 0] = .ok out ∧ out.1.width = pyI 40 := by
  have hne : (containerInit 3 none [mkLabel 4 "hi" 0]).isOk = true := by decide
  cases h : containerInit 3 none [mkLabel 4 "hi" 0] with
  | error e => rw [h] at hne; simp [Except.isOk, Except.toBool] at hne
  | ok out => exact ⟨out, rfl, (c10_default_width trivial).1 3 [mkLabel 4 "hi" 0] out h⟩

/-- C4: during a layout pass, the available width for a child is the
container width minus the side borders, minus 1 when the child is not a
container.  A STATIC child wider than that makes `get_lines` raise
`WidthExceededError` (no lines are returned); a FILL child's width is
set to all of the available width; a RELATIVE child's width becomes its
fraction times the available width; a STATIC child that fits is left
unchanged. -/
theorem c4_width_policies (self : Core) (d : ContData) (wc : Core) (wsh : Shape) (rest : WL)
    (hw : ¬ self.width.eqv (pyI 0)) (hp : d.hasPrinted = false) :
    (wc.sizePolicy = .static →
      self.width - pyI (sidelength d) - pyI (if wsh.isCont then 0 else 1) < wc.width →
      getLinesS self (.cont d (.cons wc wsh rest)) = .error .widthExceeded)
    ∧ (wc.sizePolicy = .fill → updateWidth self d wsh.isCont wc =
        .ok { wc with
          width := self.width - pyI (sidelength d) - pyI (if wsh.isCont then 0 else 1) })
    ∧ (wc.sizePolicy = .relative → updateWidth self d wsh.isCont wc =
        .ok { wc with
          width := wc.relativeWidth *
            (self.width - pyI (sidelength d) - pyI (if wsh.isCont then 0 else 1)) })
    ∧ (wc.sizePolicy = .static →
        ¬(self.width - pyI (sidelength d) - pyI (if wsh.isCont then 0 else 1) < wc.width) →
        updateWidth self d wsh.isCont wc = .ok wc) := by
  refine ⟨?_, ?_, ?_, ?_⟩
  · intro hpol hlt
    have hup : updateWidth self d wsh.isCont wc = .error .widthExceeded := by
      simp [updateWidth, hpol, hlt]
    rw [getLinesS]
    rw [if_neg (by simp [hp])]
    simp only [layoutChildren]
    rw [if_neg hw]
    simp [hup]
  · intro hpol
    simp [updateWidth, hpol]
  · intro hpol
    simp [updateWidth, hpol]
  · intro hpol hge
    simp [updateWidth, hpol, hge]

/-- Witness for C4: a STATIC child of width 100 inside a default
40-wide container aborts the layout with `WidthExceededError`. -/
theorem c4_witness :
    getLinesS (widgetInitCore 0 (some (pyI 40)))
      (.cont defaultContData
        (.cons { widgetInitCore 1 none with width := pyI 100, sizePolicy := .static }
          .base .nil)) = .error .widthExceeded :=
  (c4_width_policies (widgetInitCore 0 (some (pyI 40))) defaultContData
    { widgetInitCore 1 none with width := pyI 100, sizePolicy := .static } .base .nil
    (by decide) rfl).1 rfl (by decide)

/-- C5: a LEFT_CLICK at a point inside the mouse target of the second of
three children is handled (`True`), invokes that child's bound click
callback exactly once, and sets the container's `selected_index` to the
index of the clicked target in the container's flattened mouse-target
list (here 1). -/
theorem c5_left_click_second_child (c : Core) (d : ContData) (k1 k2 k3 : Core)
    (t1 t2 t3 : MT) (p : PyNum × PyNum) (f : Nat)
    (h1 : k1.mouseTargets = [t1]) (h2 : k2.mouseTargets = [t2]) (h3 : k3.mouseTargets = [t3])
    (hs1 : k1.selLen = 1) (hs2 : k2.selLen = 1) (hs3 : k3.selLen = 1)
    (hct : c.mouseTargets = [t1, t2, t3])
    (hdrag : d.dragTargetWid = none)
    (hn1 : t1.contains p = false) (hy2 : t2.contains p = true)
    (hne : t1 ≠ t2)
    (hw12 : k1.wid ≠ k2.wid) (hw32 : k3.wid ≠ k2.wid)
    (hcb : t2.onclickId = some f) :
    (handleMouseS c (.cont d (.cons k1 .base (.cons k2 .base (.cons k3 .base .nil))))
        .leftClick p none).2.1 = .ok true
    ∧ (handleMouseS c (.cont d (.cons k1 .base (.cons k2 .base (.cons k3 .base .nil))))
        .leftClick p none).2.2 = [⟨f, t2.ownerWid, k2.wid⟩]
    ∧ (handleMouseS c (.cont d (.cons k1 .base (.cons k2 .base (.cons k3 .base .nil))))
        .leftClick p none).1.1.selectedIndex = some 1 := by
  have hne' : t2 ≠ t1 := Ne.symm hne
  have htgt : getTarget c.mouseTargets p = some t2 := by
    rw [hct]
    simp [getTarget, List.find?, hn1, hy2]
  have hidx : childIdxByTarget (.cons k1 .base (.cons k2 .base (.cons k3 .base .nil))) t2 =
      some 1 := by
    simp [childIdxByTarget, h1, h2, hne']
  have hfind : idxOfMT c.mouseTargets t2 = some 1 := by
    rw [hct]
    simp [idxOfMT, List.indexOf?, List.findIdx?, hne', hne]
  have hchild : handleMouseS k2 Shape.base .leftClick p (some t2) =
      ((k2, Shape.base), .ok true, [⟨f, t2.ownerWid, k2.wid⟩]) := by
    simp [handleMouseS, widHandleMouse, MT.click, hcb]
  have hsel : contSelect c (.cons k1 .base (.cons k2 .base (.cons k3 .base .nil))) (some 1) =
      (({ c with selectedIndex := some 1 },
        .cons { k1 with selectedIndex := none } .base
          (.cons { k2 with selectedIndex := some 0 } .base
            (.cons { k3 with selectedIndex := none } .base .nil))), none) := by
    simp [contSelect, deselectL, selectNoneS, selLenS, hs1, hs2, hs3,
      selectablesL, selectablesS, pyIndex, selectWidL, selectWidS, widSelect,
      hw12, hw32, List.enum]
  simp [handleMouseS, htgt, hdrag, hidx, hfind, hsel, getChild, handleMouseChild,
    widHandleMouse, MT.click, hcb]

/-- Witness for C5: clicking at `(6, 2)`, inside the second child's
target, on the concrete Scenario-D container. -/
theorem c5_witness :
    (handleMouseS scenDCont
        (.cont defaultContData
          (.cons (scenDChild 1 (scenDT 1 0 3 none)) .base
            (.cons (scenDChild 2 (scenDT 2 5 9 (some 42))) .base
              (.cons (scenDChild 3 (scenDT 3 11 14 none)) .base .nil))))
        .leftClick (pyI 6, pyI 2) none).2.1 = .ok true
    ∧ (handleMouseS scenDCont
        (.cont defaultContData
          (.cons (scenDChild 1 (scenDT 1 0 3 none)) .base
            (.cons (scenDChild 2 (scenDT 2 5 9 (some 42))) .base
              (.cons (scenDChild 3 (scenDT 3 11 14 none)) .base .nil))))
        .leftClick (pyI 6, pyI 2) none).2.2 = [⟨42, 2, 2⟩]
    ∧ (handleMouseS scenDCont
        (.cont defaultContData
          (.cons (scenDChild 1 (scenDT 1 0 3 none)) .base
            (.cons (scenDChild 2 (scenDT 2 5 9 (some 42))) .base
              (.cons (scenDChild 3 (scenDT 3 11 14 none)) .base .nil))))
        .leftClick (pyI 6, pyI 2) none).1.1.selectedIndex = some 1 :=
  c5_left_click_second_child scenDCont defaultContData
    (scenDChild 1 (scenDT 1 0 3 none)) (scenDChild 2 (scenDT 2 5 9 (some 42)))
    (scenDChild 3 (scenDT 3 11 14 none))
    (scenDT 1 0 3 none) (scenDT 2 5 9 (some 42)) (scenDT 3 11 14 none)
    (pyI 6, pyI 2) 42
    rfl rfl rfl rfl rfl rfl rfl rfl (by decide) (by decide) (by decide)
    (by decide) (by decide) rfl

theorem strRep_length (n : Nat) (s : String) : (strRep n s).length = n * s.length := by
  induction n with
  | zero => simp [strRep]
  | succ m ih =>
      simp [strRep, ih]
      ring

theorem mulChar_pyI (n : Int) (s : String) : mulChar (pyI n) s = .ok (strRep n.toNat s) := by
  simp [mulChar]

theorem fdiv_two_bounds (a : Int) (ha : 0 ≤ a) : 0 ≤ a.fdiv 2 ∧ 2 * a.fdiv 2 ≤ a := by
  rw [Int.fdiv_eq_ediv _ (by omega)]
  have h1 := Int.ediv_add_emod a 2
  have h2 := Int.emod_nonneg a (by omega : (2 : Int) ≠ 0)
  have h3 := Int.ediv_nonneg ha (by omega : (0:Int) ≤ 2)
  omega

theorem applyAlign_empty_length (k : PAlign) (l r : String) (W : Int) (out : String)
    (h : applyAlign k l r (pyI W) "" = .ok out)
    (hW : (real_length (l ++ r) : Int) ≤ W) :
    (real_length out : Int) = W := by
  have hsp : (" " : String).length = 1 := rfl
  have hemp : ("" : String).length = 0 := rfl
  simp only [real_length, String.length_append] at hW
  cases k with
  | left =>
      simp only [applyAlign, pyI_sub, real_length] at h
      rw [mulChar_pyI] at h
      simp only [Except.ok.injEq] at h
      rw [← h]
      simp only [real_length, String.length_append, strRep_length, hsp, hemp, Nat.mul_one]
      omega
  | center =>
      simp only [applyAlign, pyI_sub, pyI_half, pyI_add, real_length] at h
      rw [mulChar_pyI, mulChar_pyI] at h
      simp only [Except.ok.injEq] at h
      rw [← h]
      simp only [real_length, String.length_append, strRep_length, hsp, hemp, Nat.mul_one]
      obtain ⟨hp0, hp2⟩ := fdiv_two_bounds
        (W - (((l ++ r).length : Nat) : Int) - ((("" : String).length : Nat) : Int))
        (by simp only [String.length_append, hemp]; omega)
      simp only [String.length_append, hemp] at hp0 hp2
      omega
  | right =>
      simp only [applyAlign, pyI_sub, real_length] at h
      rw [mulChar_pyI] at h
      simp only [Except.ok.injEq] at h
      rw [← h]
      simp only [real_length, String.length_append, strRep_length, hsp, hemp, Nat.mul_one]
      omega

theorem getBorder_length (l ch r : String) (W : Int) (out : String)
    (h : getBorder l ch r (pyI W) = .ok out)
    (hch : real_length ch = 1) (hW : (real_length (l ++ r) : Int) ≤ W) :
    (real_length out : Int) = W := by
  simp only [real_length] at hch
  simp only [real_length, String.length_append] at hW
  simp only [getBorder, pyI_sub, real_length] at h
  rw [mulChar_pyI] at h
  simp only [Except.ok.injEq] at h
  rw [← h]
  simp only [real_length, String.length_append, strRep_length, hch, Nat.mul_one]
  omega

theorem finishLines_mem (c : Core) (d : ContData) (k : PAlign) (lines ls : List String)
    (c' : Core) (W : Int)
    (h : finishLines c d k lines = .ok (ls, c'))
    (hcw : c.width = pyI W)
    (hside : (real_length (d.borderLeft ++ d.borderRight) : Int) ≤ W)
    (htop : real_length d.borderTop ≤ 1) (hbot : real_length d.borderBottom ≤ 1)
    (hctop : (real_length (d.cornerTL ++ d.cornerTR) : Int) ≤ W)
    (hcbot : (real_length (d.cornerBL ++ d.cornerBR) : Int) ≤ W)
    (hmem : ∀ l ∈ lines, (real_length l : Int) = W) :
    ∀ l ∈ ls, (real_length l : Int) = W := by
  simp only [finishLines] at h
  split at h
  · simp at h
  · rename_i lines1 hpad
    have hmem1 : ∀ l ∈ lines1, (real_length l : Int) = W := by
      split at hpad
      · simp only [Except.ok.injEq] at hpad
        rw [← hpad]
        exact hmem
      · split at hpad
        · simp at hpad
        · rename_i pl hpl
          simp only [Except.ok.injEq] at hpad
          rw [← hpad]
          intro l hl
          rcases List.mem_append.mp hl with h1 | h2
          · exact hmem l h1
          · rw [List.eq_of_mem_replicate h2]
            exact applyAlign_empty_length k d.borderLeft d.borderRight W pl
              (by rw [hcw] at hpl; exact hpl) hside
    split at h
    · simp at h
    · rename_i capTop hcap
      have hmemTop : ∀ l ∈ capTop, (real_length l : Int) = W := by
        split at hcap
        · rename_i hne
          cases hb : getBorder d.cornerTL d.borderTop d.cornerTR
              ({ c with height := (lines1.length : Int) - 2 }).width with
          | error e => rw [hb] at hcap; simp [Except.map] at hcap
          | ok b =>
              rw [hb] at hcap
              simp only [Except.map, Except.ok.injEq] at hcap
              rw [← hcap]
              intro l hl
              simp at hl
              rw [hl]
              exact getBorder_length d.cornerTL d.borderTop d.cornerTR W b
                (by simpa [hcw] using hb) (by omega) hctop
        · simp only [Except.ok.injEq] at hcap
          rw [← hcap]
          intro l hl
          exact absurd hl (by simp)
      split at h
      · simp at h
      · rename_i capBot hcap2
        have hmemBot : ∀ l ∈ capBot, (real_length l : Int) = W := by
          split at hcap2
          · rename_i hne
            cases hb : getBorder d.cornerBL d.borderBottom d.cornerBR
                ({ c with height := (lines1.length : Int) - 2 }).width with
            | error e => rw [hb] at hcap2; simp [Except.map] at hcap2
            | ok b =>
                rw [hb] at hcap2
                simp only [Except.map, Except.ok.injEq] at hcap2
                rw [← hcap2]
                intro l hl
                simp at hl
                rw [hl]
                exact getBorder_length d.cornerBL d.borderBottom d.cornerBR W b
                  (by simpa [hcw] using hb) (by omega) hcbot
          · simp only [Except.ok.injEq] at hcap2
            rw [← hcap2]
            intro l hl
            exact absurd hl (by simp)
        simp only [Except.ok.injEq, Prod.mk.injEq] at h
        intro l hl
        rw [← h.1] at hl
        rcases List.mem_append.mp hl with h1 | h2
        · rcases List.mem_append.mp h1 with h3 | h4
          · exact hmemTop l h3
          · exact hmem1 l h4
        · exact hmemBot l h2

/-- C1 (amended): for a successful `Container.get_lines` call on a
container whose width is nonzero and, measured against the resolved
width `W`, at least as wide as its side borders and corner pairs, with
top/bottom border chars of at most one cell, every returned line (child
content, padding and cap rows alike) has display width exactly `W`.
Without these conditions a successful call can return lines of a
different width (see the counterexample). -/
theorem c1_lines_match_width (c : Core) (d : ContData) (ws : WL) (ls : List String)
    (c' : Core) (s' : Shape) (W : Int)
    (h : getLinesS c (.cont d ws) = .ok (ls, c', s'))
    (hw : ¬ c.width.eqv (pyI 0))
    (hW : c'.width = pyI W)
    (hside : (real_length (d.borderLeft ++ d.borderRight) : Int) ≤ W)
    (htop : real_length d.borderTop ≤ 1)
    (hbot : real_length d.borderBottom ≤ 1)
    (hctop : (real_length (d.cornerTL ++ d.cornerTR) : Int) ≤ W)
    (hcbot : (real_length (d.cornerBL ++ d.cornerBR) : Int) ≤ W) :
    ∀ l ∈ ls, (real_length l : Int) = W := by
  rw [getLinesS] at h
  set c1 := if d.hasPrinted ∧ c.hasParent = false ∧ d.allowFullscreen ∧
      c.sizePolicy = SizePolicy.fill
    then { c with posX := pyI termOriginX, posY := pyI termOriginY,
                  width := pyI termWidth, height := termHeight }
    else c with hc1
  have hw1 : ¬ c1.width.eqv (pyI 0) := by
    rw [hc1]
    split
    · simp [termWidth, PyNum.eqv, pyI]
    · exact hw
  split at h
  · simp at h
  · rename_i c2 k2 lines targets ws2 hlay
    split at h
    · simp at h
    · rename_i linesF c3 hfin
      obtain ⟨hself, hmem⟩ := layoutChildren_inv ws c1 d c1.parentAlign [] []
        (c2, k2, lines, targets, ws2) hlay hw1
      simp only at hself
      subst hself
      simp only [Except.ok.injEq, Prod.mk.injEq] at h
      obtain ⟨hls, hc', _⟩ := h
      have hc3 : c3 = { c1 with height := c3.height } :=
        finishLines_core c1 d k2 lines linesF c3 hfin
      have hwidth1 : c1.width = pyI W := by
        have : c'.width = c1.width := by
          rw [← hc']
          rw [hc3]
        rw [← this, hW]
      have hmemW : ∀ l ∈ lines, (real_length l : Int) = W := by
        intro l hl
        rcases hmem l hl with h1 | h2
        · exact absurd h1 (by simp)
        · rw [hwidth1] at h2
          exact (pyI_eqv _ _).mp h2
      have := finishLines_mem c1 d k2 lines linesF c3 W hfin hwidth1 hside htop hbot
        hctop hcbot hmemW
      intro l hl
      rw [← hls] at hl
      exact this l hl

/-- C1 counterexample: a successful `get_lines` on an empty bordered
container of width 1 returns the padding line `"|  |"` of display width
4, not 1 — the width invariant is not enforced for padding rows. -/
theorem c1_counterexample :
    renderOnce thinCont (.cont defaultContData .nil) = .ok ["-", "|  |", "-"]
    ∧ (getLinesS thinCont (.cont defaultContData .nil)).map (fun r => r.2.1.width) =
        .ok (pyI 1)
    ∧ ¬ ((real_length "|  |" : Int) = 1) := by decide

/-- Witness for C1: a width-6 default-border container holding
`Label("hi")` renders lines of width exactly 6. -/
theorem c1_witness :
    ∃ ls c' s', getLinesS (widgetInitCore 0 (some (pyI 6)))
        (.cont defaultContData (.cons (mkLabel 1 "hi" 0).1 (mkLabel 1 "hi" 0).2 .nil)) =
      .ok (ls, c', s') ∧ ∀ l ∈ ls, (real_length l : Int) = 6 := by
  cases h : getLinesS (widgetInitCore 0 (some (pyI 6)))
      (.cont defaultContData (.cons (mkLabel 1 "hi" 0).1 (mkLabel 1 "hi" 0).2 .nil)) with
  | error e =>
      have hne : (getLinesS (widgetInitCore 0 (some (pyI 6)))
          (.cont defaultContData
            (.cons (mkLabel 1 "hi" 0).1 (mkLabel 1 "hi" 0).2 .nil))).isOk = true := by decide
      rw [h] at hne
      simp [Except.isOk, Except.toBool] at hne
  | ok trip =>
      obtain ⟨ls, c', s'⟩ := trip
      refine ⟨ls, c', s', rfl, ?_⟩
      have hW : c'.width = pyI 6 := by
        have h2 : (getLinesS (widgetInitCore 0 (some (pyI 6)))
            (.cont defaultContData
              (.cons (mkLabel 1 "hi" 0).1 (mkLabel 1 "hi" 0).2 .nil))).map
              (fun r => r.2.1.width) = .ok (pyI 6) := by decide
        rw [h] at h2
        simpa [Except.map] using h2
      exact c1_lines_match_width _ defaultContData _ ls c' s' 6 h (by decide) hW
        (by decide) (by decide) (by decide) (by decide) (by decide)

theorem updateWidth_fields (self : Core) (d : ContData) (b : Bool) (wc wc1 : Core)
    (hu : updateWidth self d b wc = .ok wc1) :
    wc1 = { wc with width := wc1.width } := by
  cases hpol : wc.sizePolicy with
  | fill =>
      simp only [updateWidth, hpol] at hu
      simp only [Except.ok.injEq] at hu
      rw [← hu]
  | relative =>
      simp only [updateWidth, hpol] at hu
      simp only [Except.ok.injEq] at hu
      rw [← hu]
  | static =>
      cases b with
      | false =>
          simp [updateWidth, hpol] at hu
          split at hu
          · simp at hu
          · simp only [Except.ok.injEq] at hu
            rw [← hu]
            rw [← hpol]
      | true =>
          simp [updateWidth, hpol] at hu
          split at hu
          · simp at hu
          · simp only [Except.ok.injEq] at hu
            rw [← hu]
            rw [← hpol]

theorem updateWidth_stable (self self2 : Core) (d : ContData) (b : Bool) (wc wc1 : Core)
    (px py : PyNum) (hu : updateWidth self d b wc = .ok wc1) (hW : self2.width = self.width) :
    updateWidth self2 d b { wc1 with posX := px, posY := py } =
      .ok { wc1 with posX := px, posY := py } := by
  cases hpol : wc.sizePolicy with
  | fill =>
      simp only [updateWidth, hpol, Except.ok.injEq] at hu
      subst hu
      simp [updateWidth, hW]
  | relative =>
      simp only [updateWidth, hpol, Except.ok.injEq] at hu
      subst hu
      simp [updateWidth, hW]
  | static =>
      cases b with
      | false =>
          simp [updateWidth, hpol] at hu
          split at hu
          · simp at hu
          · rename_i hlt
            simp only [Except.ok.injEq] at hu
            subst hu
            simp only [updateWidth, hpol]
            rw [hW]
            rw [if_neg (by simpa using hlt)]
      | true =>
          simp [updateWidth, hpol] at hu
          split at hu
          · simp at hu
          · rename_i hlt
            simp only [Except.ok.injEq] at hu
            subst hu
            simp only [updateWidth, hpol]
            rw [hW]
            rw [if_neg (by simpa using hlt)]

theorem labelLines_width (c c2 : Core) (v : String) (p : Nat) (h : c.width = c2.width) :
    labelLines c v p = labelLines c2 v p := by
  simp [labelLines, h]

theorem layoutFlat :
    (ws : WL) → (self : Core) → (d : ContData) → (k : PAlign) →
    (ls : List String) → (ts : List MT) →
    (out : Core × PAlign × List String × List MT × WL) →
    layoutChildren self d k ls ts ws = .ok out →
    allLabelsB ws = true → ¬ self.width.eqv (pyI 0) →
    ∃ L T, out.2.2.1 = ls ++ L ∧ out.2.2.2.1 = ts ++ T ∧
      ∀ (self2 : Core) (ls2 : List String) (ts2 : List MT),
        self2.width = self.width → self2.posX = self.posX → self2.posY = self.posY →
        ∃ wsf2, layoutChildren self2 d k ls2 ts2 out.2.2.2.2 =
          .ok (self2, out.2.1, ls2 ++ L, ts2 ++ T, wsf2)
  | .nil, self, d, k, ls, ts, out, h, hlab, hw => by
      simp only [layoutChildren, Except.ok.injEq] at h
      refine ⟨[], [], ?_, ?_, ?_⟩
      · rw [← h]; simp
      · rw [← h]; simp
      · intro self2 ls2 ts2 hW hpx hpy
        refine ⟨.nil, ?_⟩
        rw [← h]
        simp [layoutChildren]
  | .cons wc wsh rest, self, d, k, ls, ts, out, h, hlab, hw => by
      cases wsh with
      | base => simp [allLabelsB] at hlab
      | cont dd wws => simp [allLabelsB] at hlab
      | label v p =>
        have hrest : allLabelsB rest = true := by simpa [allLabelsB] using hlab
        simp only [layoutChildren] at h
        rw [if_neg hw] at h
        split at h
        · simp at h
        · rename_i wc1 hu
          split at h
          · simp at h
          · rename_i childLines wc3 wsh3 hg
            simp only [getLinesS, Except.ok.injEq, Prod.mk.injEq] at hg
            obtain ⟨hcl, hwc3, hwsh3⟩ := hg
            subst hwc3
            subst hwsh3
            subst hcl
            split at h
            · simp at h
            · rename_i aligned hc
              split at h
              · simp at h
              · rename_i cf kf lf tf restf hrec
                simp only [Except.ok.injEq] at h
                obtain ⟨L', T', hl', ht', hrun⟩ :=
                  layoutFlat rest self d wc.parentAlign _ _ _ hrec hrest hw
                dsimp only at hl' ht' hrun
                simp only [labelLines] at hc
                have hpar : wc1.parentAlign = wc.parentAlign := by
                  rw [updateWidth_fields self d _ wc wc1 hu]
                refine ⟨aligned ++ L', wc1.mouseTargets ++ T', ?_, ?_, ?_⟩
                · rw [← h]
                  dsimp only
                  rw [hl']
                  simp [List.append_assoc]
                · rw [← h]
                  dsimp only
                  rw [ht']
                  simp [List.append_assoc]
                · intro self2 ls2 ts2 hW hpx hpy
                  obtain ⟨wsf2', hrun2⟩ :=
                    hrun self2 (ls2 ++ aligned) (ts2 ++ wc1.mouseTargets) hW hpx hpy
                  rw [← h]
                  dsimp only
                  simp only [layoutChildren]
                  rw [if_neg (by rw [hW]; exact hw)]
                  rw [updateWidth_stable self self2 d _ wc wc1 _ _ hu hW]
                  try dsimp only
                  simp only [getLinesS]
                  simp only [labelLines]
                  try dsimp only
                  rw [hpar, hW]
                  rw [hc]
                  try dsimp only
                  rw [hrun2]
                  rw [← List.append_assoc ls2 aligned L', ← List.append_assoc ts2 wc1.mouseTargets T']
                  exact ⟨_, rfl⟩

/-- C2 (amended): `Container.get_lines` is not idempotent in general:
`finish_lines` stores `len(lines) - 2` back into `self.height` and the
padding loop reads the stored height, so a container whose stored height
exceeds its content shrinks on the second call (see the counterexample).
For a flat container (all children `Label`s) with nonzero width, visible
top and bottom borders, the printed-flag still unset, whose first
successful call emitted no padding rows (stored height + 2 is less than
the number of returned lines), a second `get_lines` call on the state
the first call left behind returns the identical line sequence. -/
theorem c2_second_call_same_lines (c : Core) (d : ContData) (ws : WL)
    (ls1 : List String) (c1 : Core) (s1 : Shape)
    (hlab : allLabelsB ws = true) (hp : d.hasPrinted = false)
    (hw : ¬ c.width.eqv (pyI 0))
    (htop : real_length d.borderTop ≠ 0) (hbot : real_length d.borderBottom ≠ 0)
    (h : getLinesS c (.cont d ws) = .ok (ls1, c1, s1))
    (hnopad : c.height + 2 < (ls1.length : Int)) :
    ∃ c2 s2, getLinesS c1 s1 = .ok (ls1, c2, s2) := by
  rw [getLinesS] at h
  rw [if_neg (by simp [hp])] at h
  split at h
  · simp at h
  · rename_i c2' k2 lines targets ws2 hlay
    split at h
    · simp at h
    · rename_i linesF c3 hfin
      simp only [Except.ok.injEq, Prod.mk.injEq] at h
      obtain ⟨hls, hc1, hs1⟩ := h
      have hself := (layoutChildren_inv ws c d c.parentAlign [] []
        (c2', k2, lines, targets, ws2) hlay hw).1
      dsimp only at hself
      obtain rfl := hself.symm
      obtain ⟨L, T, hL, hT, hrun⟩ := layoutFlat ws c d c.parentAlign [] []
        (c, k2, lines, targets, ws2) hlay hlab hw
      dsimp only at hL hT hrun
      simp only [List.nil_append] at hL hT
      subst hL
      subst hT
      simp only [finishLines] at hfin
      split at hfin
      · simp at hfin
      · rename_i lines1 hpadded
        rw [if_pos htop] at hfin
        cases hbt : getBorder d.cornerTL d.borderTop d.cornerTR
            ({ c with height := (lines1.length : Int) - 2 } : Core).width with
        | error e => rw [hbt] at hfin; simp [Except.map] at hfin
        | ok bt =>
        rw [hbt] at hfin
        simp only [Except.map] at hfin
        rw [if_pos hbot] at hfin
        cases hbb : getBorder d.cornerBL d.borderBottom d.cornerBR
            ({ c with height := (lines1.length : Int) - 2 } : Core).width with
        | error e => rw [hbb] at hfin; simp [Except.map] at hfin
        | ok bb =>
        rw [hbb] at hfin
        simp only [Except.map, Except.ok.injEq, Prod.mk.injEq] at hfin
        obtain ⟨hlinesF, hc3⟩ := hfin
        split at hpadded
        · -- no padding appended
          rename_i hpc
          simp only [Except.ok.injEq] at hpadded
          subst hpadded
          -- second call
          rw [← hs1]
          rw [getLinesS]
          rw [if_neg (by simp [hp])]
          obtain rfl := hc3.symm
          dsimp only at hc1
          have hW : c1.width = c.width := by rw [← hc1]
          have hpx : c1.posX = c.posX := by rw [← hc1]
          have hpy : c1.posY = c.posY := by rw [← hc1]
          have hpa : c1.parentAlign = c.parentAlign := by rw [← hc1]
          have hH : c1.height = (lines.length : Int) - 2 := by rw [← hc1]
          rw [hpa]
          obtain ⟨wsf2, hrun2⟩ := hrun c1 [] [] hW hpx hpy
          rw [hrun2]
          dsimp only
          simp only [List.nil_append]
          simp only [finishLines]
          rw [hH]
          have hpc2 : (((lines.length : Int) - 2) - (lines.length : Int)).toNat = 0 := by
            omega
          rw [hpc2]
          rw [if_pos rfl]
          dsimp only
          rw [hW]
          dsimp only at hbt hbb
          rw [if_pos htop]
          rw [hbt]
          simp only [Except.map]
          rw [if_pos hbot]
          rw [hbb]
          dsimp only
          rw [hlinesF]
          rw [hls]
          exact ⟨_, _, rfl⟩
        · -- padding appended: contradiction with hnopad
          rename_i hpc
          split at hpadded
          · simp at hpadded
          · rename_i pl hpl
            simp only [Except.ok.injEq] at hpadded
            rw [← hlinesF] at hls
            rw [← hls] at hnopad
            rw [← hpadded] at hnopad
            simp [List.length_append, List.length_replicate] at hnopad
            omega

/-- C2 counterexample: an empty bordered container of width 6 whose
stored height 5 exceeds its content renders 7 lines on the first
`get_lines` call but only 5 on the second — the two calls disagree. -/
theorem c2_counterexample :
    renderOnce tallCont (.cont defaultContData .nil) =
      .ok ["------", "|    |", "|    |", "|    |", "|    |", "|    |", "------"]
    ∧ renderAgain tallCont (.cont defaultContData .nil) =
      .ok ["------", "|    |", "|    |", "|    |", "------"]
    ∧ renderOnce tallCont (.cont defaultContData .nil) ≠
      renderAgain tallCont (.cont defaultContData .nil) := by decide

/-- Witness for C2: a width-6 default-border container of stored height 1
holding `Label("hi")` and `Label("yo")` renders six lines, with no
padding row, and a second call reproduces them exactly. -/
theorem c2_witness :
    ∃ ls1 c1 s1, getLinesS (widgetInitCore 0 (some (pyI 6)))
        (.cont defaultContData (.cons (mkLabel 1 "hi" 0).1 (mkLabel 1 "hi" 0).2
          (.cons (mkLabel 2 "yo" 0).1 (mkLabel 2 "yo" 0).2 .nil))) =
        .ok (ls1, c1, s1)
      ∧ ∃ c2 s2, getLinesS c1 s1 = .ok (ls1, c2, s2) := by
  cases h : getLinesS (widgetInitCore 0 (some (pyI 6)))
      (.cont defaultContData (.cons (mkLabel 1 "hi" 0).1 (mkLabel 1 "hi" 0).2
        (.cons (mkLabel 2 "yo" 0).1 (mkLabel 2 "yo" 0).2 .nil))) with
  | error e =>
      have hne : (getLinesS (widgetInitCore 0 (some (pyI 6)))
          (.cont defaultContData (.cons (mkLabel 1 "hi" 0).1 (mkLabel 1 "hi" 0).2
            (.cons (mkLabel 2 "yo" 0).1 (mkLabel 2 "yo" 0).2 .nil)))).isOk = true := by decide
      rw [h] at hne
      simp [Except.isOk, Except.toBool] at hne
  | ok trip =>
      obtain ⟨ls1, c1, s1⟩ := trip
      refine ⟨ls1, c1, s1, rfl, ?_⟩
      have hlen : (ls1.length : Int) = 6 := by
        have h2 : (getLinesS (widgetInitCore 0 (some (pyI 6)))
            (.cont defaultContData (.cons (mkLabel 1 "hi" 0).1 (mkLabel 1 "hi" 0).2
              (.cons (mkLabel 2 "yo" 0).1 (mkLabel 2 "yo" 0).2 .nil)))).map
            (fun r => (r.1.length : Int)) = .ok 6 := by decide
        rw [h] at h2
        simpa [Except.map] using h2
      exact c2_second_call_same_lines _ defaultContData _ ls1 c1 s1 (by decide) (by decide)
        (by decide) (by decide) (by decide) h (by rw [hlen]; decide)

end Ptg
